import Mathlib

/-!
Verification of the ion-chromatography data-processing pipeline
(`DataProc.py`) against its natural-language specification.

The script is a single linear pipeline: it parses each `.txt` output file
into a numeric table, rescales the row index from acquisition cycles to
minutes, extracts per-anion peak heights as the maximum of a label-sliced
window of the table, fits one least-squares calibration line per anion
through the four standards, predicts concentrations for every sample,
flags predictions below the lowest standard, converts ppm to mmol, and
sorts the report rows by sample name.

The embedding uses exact rationals for the numeric values.  Fallible
steps of the script (a missing `stdk` sample name, `np.max` over an empty
window slice) are modelled with `Option`, `none` standing for the raised
exception that aborts the run.
-/

set_option maxRecDepth 100000

attribute [local semireducible] Rat.add Rat.mul Rat.sub Rat.inv Rat.ofScientific

namespace DataProc

/-- A sample's table as the housekeeping loop (lines 39-42) leaves it: a
time index (one rational label per row) and the rows of the numeric data,
each row listing the value of every column.  Column 0 is the first file
column after its leading colon was stripped and the column was renamed to
SpCond; any further file columns follow it. -/
structure DataFrame where
  index : List ℚ
  rows : List (List ℚ)
deriving DecidableEq

/-- Line 42: one positional row number converted to minutes (60
acquisition cycles per minute). -/
def minutes (i : ℕ) : ℚ := (i : ℚ) / 60

/-- Lines 39-42: the parsed body of one file (`raw`, rows of numeric
values, column 0 already colon-stripped and numeric) is given the time
index `position / 60` — the script divides the default positional
`RangeIndex` by 60, it never reads a file column for the index. -/
def housekeep (raw : List (List ℚ)) : DataFrame :=
  { index := (List.range raw.length).map minutes
    rows := raw }

/-- `df.loc[a:b, :]` (lines 73-76 and 102-105): label-based slicing on an
ordered index keeps exactly the rows whose index label `t` satisfies
`a ≤ t ≤ b`, both bounds included, with every column. -/
def locSlice (df : DataFrame) (a b : ℚ) : List (List ℚ) :=
  ((df.index.zip df.rows).filter
    (fun p => decide (a ≤ p.1) && decide (p.1 ≤ b))).map Prod.snd

/-- `np.asarray(df.loc[a:b, :])` flattened to the multiset of all its
entries (every column of every in-window row). -/
def windowVals (df : DataFrame) (a b : ℚ) : List ℚ :=
  (locSlice df a b).flatten

/-- Binary maximum of two rationals, written out with `if` (it is proved
equal to `max` below; the unfolded form keeps kernel evaluation cheap). -/
def qmax (a b : ℚ) : ℚ := if a ≤ b then b else a

/-- The greatest element of a list of rationals, `none` when empty. -/
def listMax : List ℚ → Option ℚ
  | [] => none
  | v :: vs => some (vs.foldl qmax v)

/-- `np.max(np.asarray(df.loc[a:b, :]))`: the greatest entry of the
window slice over all columns; `none` models the `ValueError` numpy
raises on an empty slice. -/
def npMax (df : DataFrame) (a b : ℚ) : Option ℚ :=
  listMax (windowVals df a b)

/-- Specification-side description of the window contents: `x` is the
value of some column of some row whose time index lies in `[a, b]`. -/
def inWindow (df : DataFrame) (a b x : ℚ) : Prop :=
  ∃ p ∈ df.index.zip df.rows, a ≤ p.1 ∧ p.1 ≤ b ∧ x ∈ p.2

/-- Modelled from the spec's words (section 4.3, claim C1): the maximum
of the dependent (SpCond, column 0) variable alone over the rows of the
window — what the spec says peak extraction returns.  Compared against
`npMax`, which is what the code computes. -/
def condMaxInWindow (df : DataFrame) (a b : ℚ) : Option ℚ :=
  listMax ((locSlice df a b).filterMap List.head?)

/-- The three fixed elution windows: Cl [5,7], NO3 [9,11], SO4 [12.5,15]. -/
def anionWindows : List (ℚ × ℚ) := [(5, 7), (9, 11), (25 / 2, 15)]

/-- Line 54: the known concentrations of std1..std4. -/
def stds_known : List ℚ := [5 / 2, 5, 10, 20]

def mean (xs : List ℚ) : ℚ := xs.sum / xs.length

/-- Centered second moment of the regressor values. -/
def sxx (xs : List ℚ) : ℚ :=
  (xs.map (fun x => (x - mean xs) * (x - mean xs))).sum

/-- Centered cross moment of regressor and response values. -/
def sxy (xs ys : List ℚ) : ℚ :=
  ((xs.zip ys).map (fun p => (p.1 - mean xs) * (p.2 - mean ys))).sum

/-- The `coef_` of `LinearRegression().fit` on one regressor column:
the ordinary least-squares slope.  For a zero-variance regressor the
centered least-squares problem is solved by `lstsq` with the least-norm
solution, slope 0. -/
def fitSlope (xs ys : List ℚ) : ℚ :=
  if sxx xs = 0 then 0 else sxy xs ys / sxx xs

/-- `LinearRegression().fit` (lines 83-90) on one regressor column:
ordinary least squares, returning (slope `coef_`, `intercept_`). -/
def fitLine (xs ys : List ℚ) : ℚ × ℚ :=
  (fitSlope xs ys, mean ys - fitSlope xs ys * mean xs)

/-- `model.predict` at one value: slope * x + intercept. -/
def predict (f : ℚ × ℚ) (x : ℚ) : ℚ := f.1 * x + f.2

/-- Lines 124-140: the below-detection comment attached to one predicted
concentration. -/
def flag (conc : ℚ) : String := if conc < 5 / 2 then ("below std1") else ("")

def molarMassCl : ℚ := 35.453
def molarMassNo3 : ℚ := 62.0049
def molarMassSo4 : ℚ := 96.06

/-- One row of the `results` table (lines 146-150), for one sample. -/
structure Row where
  clPeakH : ℚ
  no3PeakH : ℚ
  so4PeakH : ℚ
  clPpm : ℚ
  no3Ppm : ℚ
  so4Ppm : ℚ
  clMmol : ℚ
  no3Mmol : ℚ
  so4Mmol : ℚ
  clComment : String
  no3Comment : String
  so4Comment : String
deriving DecidableEq

/-- The three per-anion peak heights of one sample (lines 102-105); the
run aborts (`none`) if any window slice is empty. -/
def anionPeaks (df : DataFrame) : Option (ℚ × ℚ × ℚ) := do
  let c ← npMax df 5 7
  let n ← npMax df 9 11
  let s ← npMax df (25 / 2) 15
  pure (c, n, s)

/-- Lines 113-115, 124-140 and 146-150 for one sample: apply the three
fitted curves to the sample's peaks, flag, and convert ppm to mmol. -/
def mkRow (fits : (ℚ × ℚ) × (ℚ × ℚ) × (ℚ × ℚ)) (p : ℚ × ℚ × ℚ) : Row :=
  let clC := predict fits.1 p.1
  let no3C := predict fits.2.1 p.2.1
  let so4C := predict fits.2.2 p.2.2
  { clPeakH := p.1
    no3PeakH := p.2.1
    so4PeakH := p.2.2
    clPpm := clC
    no3Ppm := no3C
    so4Ppm := so4C
    clMmol := clC / molarMassCl
    no3Mmol := no3C / molarMassNo3
    so4Mmol := so4C / molarMassSo4
    clComment := flag clC
    no3Comment := flag no3C
    so4Comment := flag so4C }

def sampleRow (fits : (ℚ × ℚ) × (ℚ × ℚ) × (ℚ × ℚ)) (df : DataFrame) :
    Option Row :=
  (anionPeaks df).map (mkRow fits)

/-- One discovered input file: its sample name (the file stem) and the
parsed numeric body handed to the housekeeping loop. -/
abbrev RawFile := String × List (List ℚ)

def sampleNames (files : List RawFile) : List String := files.map Prod.fst

def sampleData (files : List RawFile) : List DataFrame :=
  files.map (fun f => housekeep f.2)

/-- Lines 57-61: `samples.index("stdk")` followed by `data[i]`; `none`
models the `ValueError` when the name is missing. -/
def stdData (files : List RawFile) (s : String) : Option DataFrame := do
  let i ← (sampleNames files).indexOf? s
  (sampleData files)[i]?

/-- Lines 54-90: locate the four standards by name, extract their peaks
in each anion window, and fit the three calibration lines against the
known concentrations [2.5, 5, 10, 20]. -/
def calibFits (files : List RawFile) :
    Option ((ℚ × ℚ) × (ℚ × ℚ) × (ℚ × ℚ)) := do
  let d1 ← stdData files ("std1")
  let d2 ← stdData files ("std2")
  let d3 ← stdData files ("std3")
  let d4 ← stdData files ("std4")
  let p1 ← anionPeaks d1
  let p2 ← anionPeaks d2
  let p3 ← anionPeaks d3
  let p4 ← anionPeaks d4
  pure (fitLine [p1.1, p2.1, p3.1, p4.1] stds_known,
        fitLine [p1.2.1, p2.2.1, p3.2.1, p4.2.1] stds_known,
        fitLine [p1.2.2, p2.2.2, p3.2.2, p4.2.2] stds_known)

/-- The rows of the report in discovery order: one row per sample whose
three window slices are nonempty, standards included (lines 102-150). -/
def unsortedResults (fits : (ℚ × ℚ) × (ℚ × ℚ) × (ℚ × ℚ))
    (files : List RawFile) : List (String × Row) :=
  files.filterMap
    (fun f => (sampleRow fits (housekeep f.2)).map (fun r => (f.1, r)))

/-- The report rows before sorting, or `none` when the run aborts: the
standards must be found and every sample (the loop at lines 102-105 runs
over all of `data`) must have data in all three windows. -/
def pipelineRows (files : List RawFile) : Option (List (String × Row)) := do
  let fits ← calibFits files
  if files.all (fun f => (sampleRow fits (housekeep f.2)).isSome) then
    pure (unsortedResults fits files)
  else none

/-- `results.sort_index()` comparison on sample names. -/
def nameLe (p q : String × Row) : Bool := decide (p.1 ≤ q.1)

/-- The exported report (lines 146-153): the rows, sorted by sample name
ascending, or `none` when the run aborted. -/
def results (files : List RawFile) : Option (List (String × Row)) :=
  (pipelineRows files).map (fun rs => rs.mergeSort nameLe)

/-- A table with a second data column: 301 rows (so the Cl window [5,7]
holds exactly the row at time 5), SpCond column constantly 0 except for
the last row, where SpCond is 1 and the second column is 5. -/
def cexRaw : List (List ℚ) := List.replicate 300 [0, 0] ++ [[1, 5]]

def cexFrame : DataFrame := housekeep cexRaw

/-- A one-column trace long enough to reach the SO4 window (751 rows,
times 0 .. 12.5 min), constantly `v`. -/
def wFrame (v : ℚ) : List (List ℚ) := List.replicate 751 [v]

/-- A complete batch: the four standards with peak heights 1, 2, 3, 4 and
one unknown with peak height 6. -/
def W : List RawFile :=
  [(("std1"), wFrame 1), (("std2"), wFrame 2), (("std3"), wFrame 3),
   (("std4"), wFrame 4), (("unk"), wFrame 6)]

/-- The batch `W` with its first two files discovered in the other order. -/
def Wswapped : List RawFile :=
  [(("std2"), wFrame 2), (("std1"), wFrame 1), (("std3"), wFrame 3),
   (("std4"), wFrame 4), (("unk"), wFrame 6)]

/-- The calibration fits of the batch `W`: all three anions see standard
peaks 1, 2, 3, 4 against concentrations 2.5, 5, 10, 20, whose
least-squares line is 5.75 x - 5. -/
def wFits : (ℚ × ℚ) × (ℚ × ℚ) × (ℚ × ℚ) :=
  ((23 / 4, -5), (23 / 4, -5), (23 / 4, -5))

/-- A batch with a single one-row file: every anion window is empty. -/
def shortBatch : List RawFile := [(("sample1"), [[0]])]

instance : IsAntisymm (String × Row) (fun p q => p.1 < q.1) :=
  ⟨fun _ _ h1 h2 => absurd h2 (lt_asymm h1)⟩

theorem qmax_eq_max (a b : ℚ) : qmax a b = max a b := by
  rw [qmax, max_def]

theorem left_le_foldl_qmax (l : List ℚ) (v : ℚ) : v ≤ l.foldl qmax v := by
  induction l generalizing v with
  | nil => exact le_refl v
  | cons x xs ih =>
    calc v ≤ qmax v x := by rw [qmax_eq_max]; exact le_max_left v x
    _ ≤ (x :: xs).foldl qmax v := by rw [List.foldl_cons]; exact ih (qmax v x)

theorem mem_le_foldl_qmax (l : List ℚ) (v x : ℚ) (hx : x ∈ l) :
    x ≤ l.foldl qmax v := by
  induction l generalizing v with
  | nil => cases hx
  | cons y ys ih =>
    rw [List.foldl_cons]
    rcases List.mem_cons.mp hx with h | h
    · subst h
      calc x ≤ qmax v x := by rw [qmax_eq_max]; exact le_max_right v x
      _ ≤ ys.foldl qmax (qmax v x) := left_le_foldl_qmax ys (qmax v x)
    · exact ih (qmax v y) h

theorem foldl_qmax_mem (l : List ℚ) (v : ℚ) :
    l.foldl qmax v = v ∨ l.foldl qmax v ∈ l := by
  induction l generalizing v with
  | nil => exact Or.inl rfl
  | cons x xs ih =>
    rw [List.foldl_cons]
    rcases ih (qmax v x) with h | h
    · rw [h, qmax]
      by_cases hvx : v ≤ x
      · rw [if_pos hvx]; exact Or.inr (List.mem_cons_self x xs)
      · rw [if_neg hvx]; exact Or.inl rfl
    · exact Or.inr (List.mem_cons_of_mem x h)

theorem listMax_eq_some_iff (l : List ℚ) (m : ℚ) :
    listMax l = some m ↔ m ∈ l ∧ ∀ x ∈ l, x ≤ m := by
  cases l with
  | nil => simp [listMax]
  | cons v vs =>
    constructor
    · intro h
      have hm : m = vs.foldl qmax v := by
        have := h
        rw [listMax] at this
        exact (Option.some_injective _ this).symm
      constructor
      · rcases foldl_qmax_mem vs v with h2 | h2
        · rw [hm, h2]; exact List.mem_cons_self v vs
        · rw [hm]; exact List.mem_cons_of_mem v h2
      · intro x hx
        rcases List.mem_cons.mp hx with h2 | h2
        · rw [hm, h2]; exact left_le_foldl_qmax vs v
        · rw [hm]; exact mem_le_foldl_qmax vs v x h2
    · rintro ⟨hmem, hub⟩
      rw [listMax]
      congr 1
      have h1 : vs.foldl qmax v ≤ m := by
        rcases foldl_qmax_mem vs v with h2 | h2
        · rw [h2]; exact hub v (List.mem_cons_self v vs)
        · exact hub _ (List.mem_cons_of_mem v h2)
      have h2 : m ≤ vs.foldl qmax v := by
        rcases List.mem_cons.mp hmem with h3 | h3
        · rw [h3]; exact left_le_foldl_qmax vs v
        · exact mem_le_foldl_qmax vs v m h3
      exact le_antisymm h1 h2

theorem mem_windowVals (df : DataFrame) (a b x : ℚ) :
    x ∈ windowVals df a b ↔ inWindow df a b x := by
  rw [windowVals, locSlice, inWindow]
  simp only [List.mem_flatten, List.mem_map, List.mem_filter,
    Bool.and_eq_true, decide_eq_true_eq]
  constructor
  · rintro ⟨r, ⟨p, ⟨hp, ha, hb⟩, rfl⟩, hx⟩
    exact ⟨p, hp, ha, hb, hx⟩
  · rintro ⟨p, hp, ha, hb, hx⟩
    exact ⟨p.2, ⟨p, ⟨hp, ha, hb⟩, rfl⟩, hx⟩

theorem npMax_eq_some_iff (df : DataFrame) (a b m : ℚ) :
    npMax df a b = some m ↔
      inWindow df a b m ∧ ∀ x, inWindow df a b x → x ≤ m := by
  rw [npMax, listMax_eq_some_iff]
  constructor
  · rintro ⟨hmem, hub⟩
    exact ⟨(mem_windowVals df a b m).mp hmem,
      fun x hx => hub x ((mem_windowVals df a b x).mpr hx)⟩
  · rintro ⟨hmem, hub⟩
    exact ⟨(mem_windowVals df a b m).mpr hmem,
      fun x hx => hub x ((mem_windowVals df a b x).mp hx)⟩

theorem locSlice_sub_rows (df : DataFrame) (a b : ℚ) (r : List ℚ)
    (hr : r ∈ locSlice df a b) : r ∈ df.rows := by
  rw [locSlice] at hr
  rcases List.mem_map.mp hr with ⟨p, hp, rfl⟩
  exact (List.of_mem_zip (List.mem_of_mem_filter hp)).2

theorem flatten_eq_filterMap_head (L : List (List ℚ))
    (h : ∀ r ∈ L, ∃ v, r = [v]) : L.flatten = L.filterMap List.head? := by
  induction L with
  | nil => rfl
  | cons r rs ih =>
    rcases h r (List.mem_cons_self r rs) with ⟨v, rfl⟩
    rw [List.flatten_cons, List.filterMap_cons]
    show v :: rs.flatten = v :: rs.filterMap List.head?
    rw [ih (fun r hr => h r (List.mem_cons_of_mem _ hr))]

/-- C1 (amended): for each of the three anion windows, the extracted
peak height is characterised as the greatest value over all columns of
exactly the rows whose time index t satisfies a ≤ t ≤ b, both boundary
times included and no row outside the window contributing. -/
theorem C1_peak_is_window_max (df : DataFrame) (m : ℚ) :
    (npMax df 5 7 = some m ↔
      inWindow df 5 7 m ∧ ∀ x, inWindow df 5 7 x → x ≤ m) ∧
    (npMax df 9 11 = some m ↔
      inWindow df 9 11 m ∧ ∀ x, inWindow df 9 11 x → x ≤ m) ∧
    (npMax df (25 / 2) 15 = some m ↔
      inWindow df (25 / 2) 15 m ∧ ∀ x, inWindow df (25 / 2) 15 x → x ≤ m) :=
  ⟨npMax_eq_some_iff df 5 7 m, npMax_eq_some_iff df 9 11 m,
    npMax_eq_some_iff df (25 / 2) 15 m⟩

/-- C1 counterexample: on a table with a second column the extracted
peak (5, from the second column) is not the maximum of the dependent
SpCond column (1) over the window, refuting the claim as stated. -/
theorem C1_counterexample :
    npMax cexFrame 5 7 = some 5 ∧ condMaxInWindow cexFrame 5 7 = some 1 ∧
      npMax cexFrame 5 7 ≠ condMaxInWindow cexFrame 5 7 := by decide

/-- C5: the value returned as peak height is the greatest entry over ALL
columns of the in-window rows; for a one-column table it coincides with
the SpCond column maximum, and there is a table with a second column on
which it differs from the SpCond column maximum. -/
theorem C5_max_over_all_columns :
    (∀ df a b m, npMax df a b = some m ↔
      inWindow df a b m ∧ ∀ x, inWindow df a b x → x ≤ m) ∧
    (∀ df a b, (∀ r ∈ df.rows, ∃ v, r = [v]) →
      npMax df a b = condMaxInWindow df a b) ∧
    (∃ df, npMax df 5 7 ≠ condMaxInWindow df 5 7) := by
  refine ⟨npMax_eq_some_iff, ?_, ⟨cexFrame, by decide⟩⟩
  intro df a b h
  rw [npMax, windowVals, condMaxInWindow,
    flatten_eq_filterMap_head (locSlice df a b)
      (fun r hr => h r (locSlice_sub_rows df a b r hr))]

/-- C5 witness: on a concrete one-column table the peak coincides with
the SpCond column maximum. -/
theorem C5_witness :
    npMax (housekeep (wFrame 2)) 5 7 =
      condMaxInWindow (housekeep (wFrame 2)) 5 7 :=
  C5_max_over_all_columns.2.1 (housekeep (wFrame 2)) 5 7 (by
    intro r hr
    rw [housekeep] at hr
    exact ⟨2, List.eq_of_mem_replicate hr⟩)

theorem flag_iff (c : ℚ) :
    (flag c = ("below std1") ↔ c < 5 / 2) ∧ (flag c = ("") ↔ ¬ c < 5 / 2) := by
  rw [flag]
  by_cases h : c < 5 / 2
  · rw [if_pos h]
    exact ⟨⟨fun _ => h, fun _ => rfl⟩, ⟨fun he => absurd he (by decide), fun hn => absurd h hn⟩⟩
  · rw [if_neg h]
    exact ⟨⟨fun he => absurd he.symm (by decide), fun hc => absurd hc h⟩,
      ⟨fun _ => h, fun _ => rfl⟩⟩

/-- C3: for every sample and anion the comment is "below std1" exactly
when the predicted concentration is strictly below 2.5; at exactly 2.5
the comment is empty, at 2.4999 it is "below std1", at 2.5001 empty. -/
theorem C3_below_detection :
    (∀ c : ℚ, (flag c = ("below std1") ↔ c < 5 / 2) ∧
      (flag c = ("") ↔ ¬ c < 5 / 2)) ∧
    flag (5 / 2) = ("") ∧ flag 2.4999 = ("below std1") ∧ flag 2.5001 = ("") ∧
    (∀ fits df r, sampleRow fits df = some r →
      (r.clComment = ("below std1") ↔ r.clPpm < 5 / 2) ∧
      (r.no3Comment = ("below std1") ↔ r.no3Ppm < 5 / 2) ∧
      (r.so4Comment = ("below std1") ↔ r.so4Ppm < 5 / 2)) := by
  refine ⟨flag_iff, by decide, by decide, by decide, ?_⟩
  intro fits df r hr
  rw [sampleRow] at hr
  rcases Option.map_eq_some'.mp hr with ⟨p, _, rfl⟩
  exact ⟨(flag_iff _).1, (flag_iff _).1, (flag_iff _).1⟩

/-- C4 (amended): the time coordinate of row i of every ingested table
is i / 60 where i is the positional row number (the raw acquisition
cycle count of that row); the file's data columns are untouched by the
index rescaling and are not consulted for it. -/
theorem C4_time_index (raw : List (List ℚ)) (i : ℕ) (h : i < raw.length) :
    (housekeep raw).index[i]? = some ((i : ℚ) / 60) ∧
      (housekeep raw).rows = raw := by
  constructor
  · rw [housekeep]
    simp only [List.getElem?_map, List.getElem?_range h, Option.map_some]
    rfl
  · rfl

/-- C4 witness: the single-row table [[7]] has time coordinate 0 / 60
at row 0. -/
theorem C4_witness :
    (housekeep [[(7 : ℚ)]]).index[0]? = some (((0 : ℕ) : ℚ) / 60) ∧
      (housekeep [[(7 : ℚ)]]).rows = [[(7 : ℚ)]] :=
  C4_time_index [[(7 : ℚ)]] 0 (by decide)

/-- C4 counterexample: for the table [[7]] the first (colon-stripped)
column holds 7 while the time index of its only row is 0, not 7 / 60:
the first column of the file does not agree with the time index up to
the factor 1 / 60. -/
theorem C4_counterexample :
    (housekeep [[(7 : ℚ)]]).index[0]? = some 0 ∧
      ((housekeep [[(7 : ℚ)]]).rows[0]?.bind List.head?) = some 7 ∧
      ¬ ((0 : ℚ) = 7 / 60) := by decide

theorem sampleRow_none_of_window (df : DataFrame) (a b : ℚ)
    (hab : (a, b) ∈ anionWindows) (hw : windowVals df a b = []) :
    ∀ fits, sampleRow fits df = none := by
  intro fits
  have hnone : npMax df a b = none := by rw [npMax, hw]; rfl
  simp only [anionWindows, List.mem_cons, List.not_mem_nil, or_false,
    Prod.mk.injEq] at hab
  rw [sampleRow, anionPeaks]
  rcases hab with ⟨rfl, rfl⟩ | ⟨rfl, rfl⟩ | ⟨rfl, rfl⟩
  · rw [hnone]; rfl
  · cases h1 : npMax df 5 7 <;> simp [hnone]
  · cases h1 : npMax df 5 7 <;> cases h2 : npMax df 9 11 <;> simp [hnone]

/-- C7: a sample with no rows in one of the anion windows yields no
numeric peak (the empty-window maximum is the aborting empty-max error,
not a NaN), and the run produces no report. -/
theorem C7_empty_window_aborts (files : List RawFile) (k : ℕ) (a b : ℚ)
    (hk : k < files.length) (hab : (a, b) ∈ anionWindows)
    (hw : windowVals (housekeep (files.get ⟨k, hk⟩).2) a b = []) :
    npMax (housekeep (files.get ⟨k, hk⟩).2) a b = none ∧
      pipelineRows files = none ∧ results files = none := by
  have hs : ∀ fits, sampleRow fits (housekeep (files.get ⟨k, hk⟩).2) = none :=
    sampleRow_none_of_window _ a b hab hw
  have hp : pipelineRows files = none := by
    rw [pipelineRows]
    cases hc : calibFits files with
    | none => rfl
    | some fits =>
      have hall : files.all (fun f => (sampleRow fits (housekeep f.2)).isSome)
          = false :=
        List.all_eq_false.mpr
          ⟨files.get ⟨k, hk⟩, List.get_mem files k hk, by rw [hs fits]; decide⟩
      simp [hall]
  exact ⟨by rw [npMax, hw]; rfl, hp, by rw [results, hp]; rfl⟩

/-- C7 witness: a batch holding one single-row trace (time 0 only) has
an empty Cl window, extraction yields no numeric peak and the run
produces no report. -/
theorem C7_witness :
    npMax (housekeep ((shortBatch.get ⟨0, by decide⟩).2)) 5 7 = none ∧
      pipelineRows shortBatch = none ∧ results shortBatch = none :=
  C7_empty_window_aborts shortBatch 0 5 7 (by decide) (by decide) (by decide)

/-- C2: for each anion the calibration curve is the least-squares line
through the four (standard peak, known concentration) points with
concentrations 2.5, 5, 10, 20; when those four points are collinear the
fit recovers the line exactly (zero residual) and prediction returns the
line's value at any peak. -/
theorem C2_calibration_exact (a b x1 x2 x3 x4 : ℚ)
    (h1 : 5 / 2 = a * x1 + b) (h2 : 5 = a * x2 + b)
    (h3 : 10 = a * x3 + b) (h4 : 20 = a * x4 + b) :
    fitLine [x1, x2, x3, x4] stds_known = (a, b) ∧
    (∀ x, predict (fitLine [x1, x2, x3, x4] stds_known) x = a * x + b) ∧
    predict (fitLine [x1, x2, x3, x4] stds_known) x1 = 5 / 2 ∧
    predict (fitLine [x1, x2, x3, x4] stds_known) x2 = 5 ∧
    predict (fitLine [x1, x2, x3, x4] stds_known) x3 = 10 ∧
    predict (fitLine [x1, x2, x3, x4] stds_known) x4 = 20 := by
  have ha : a ≠ 0 := by
    intro h0
    rw [h0, zero_mul, zero_add] at h1 h2
    rw [← h1] at h2
    norm_num at h2
  have e1 : x1 = (5 / 2 - b) / a := by field_simp; linarith
  have e2 : x2 = (5 - b) / a := by field_simp; linarith
  have e3 : x3 = (10 - b) / a := by field_simp; linarith
  have e4 : x4 = (20 - b) / a := by field_simp; linarith
  subst e1 e2 e3 e4
  have hm : mean [(5 / 2 - b) / a, (5 - b) / a, (10 - b) / a, (20 - b) / a]
      = (75 / 8 - b) / a := by
    rw [mean]
    norm_num [List.sum_cons, List.sum_nil]
    field_simp
    ring
  have hmy : mean stds_known = 75 / 8 := by
    rw [stds_known, mean]
    norm_num [List.sum_cons, List.sum_nil]
  have hsxx : sxx [(5 / 2 - b) / a, (5 - b) / a, (10 - b) / a, (20 - b) / a]
      = (2875 / 16) / (a * a) := by
    rw [sxx, hm]
    norm_num [List.sum_cons, List.sum_nil]
    field_simp
    ring
  have hsxy : sxy [(5 / 2 - b) / a, (5 - b) / a, (10 - b) / a, (20 - b) / a]
      stds_known = (2875 / 16) / a := by
    rw [sxy, hm, hmy, stds_known]
    norm_num [List.sum_cons, List.sum_nil, List.zip]
    field_simp
    ring
  have hne : sxx [(5 / 2 - b) / a, (5 - b) / a, (10 - b) / a, (20 - b) / a]
      ≠ 0 := by
    rw [hsxx]
    exact div_ne_zero (by norm_num) (mul_ne_zero ha ha)
  have hslope : fitSlope
      [(5 / 2 - b) / a, (5 - b) / a, (10 - b) / a, (20 - b) / a]
      stds_known = a := by
    rw [fitSlope, if_neg hne, hsxy, hsxx]
    field_simp
    ring
  have hfit : fitLine [(5 / 2 - b) / a, (5 - b) / a, (10 - b) / a, (20 - b) / a]
      stds_known = (a, b) := by
    rw [fitLine, hslope, hmy, hm, Prod.mk.injEq]
    refine ⟨rfl, ?_⟩
    field_simp
    ring
  have hpred : ∀ x, predict (fitLine
      [(5 / 2 - b) / a, (5 - b) / a, (10 - b) / a, (20 - b) / a]
      stds_known) x = a * x + b := by
    intro x
    rw [hfit]
    rfl
  exact ⟨hfit, hpred, (hpred _).trans h1.symm, (hpred _).trans h2.symm,
    (hpred _).trans h3.symm, (hpred _).trans h4.symm⟩

/-- C2 witness: the collinear peaks 1, 2, 4, 8 on the line
c = 2.5 x + 0 are fit exactly. -/
theorem C2_witness :
    fitLine [1, 2, 4, 8] stds_known = (5 / 2, 0) ∧
    (∀ x, predict (fitLine [1, 2, 4, 8] stds_known) x = 5 / 2 * x + 0) ∧
    predict (fitLine [1, 2, 4, 8] stds_known) 1 = 5 / 2 ∧
    predict (fitLine [1, 2, 4, 8] stds_known) 2 = 5 ∧
    predict (fitLine [1, 2, 4, 8] stds_known) 4 = 10 ∧
    predict (fitLine [1, 2, 4, 8] stds_known) 8 = 20 :=
  C2_calibration_exact (5 / 2) 0 1 2 4 8 (by decide) (by decide) (by decide)
    (by decide)

theorem filterMap_length_of_all {α β : Type} (g : α → Option β) (l : List α)
    (h : ∀ x ∈ l, (g x).isSome) : (l.filterMap g).length = l.length := by
  induction l with
  | nil => rfl
  | cons x xs ih =>
    rcases Option.isSome_iff_exists.mp (h x (List.mem_cons_self x xs)) with ⟨y, hy⟩
    rw [List.filterMap_cons, hy, List.length_cons,
      ih (fun z hz => h z (List.mem_cons_of_mem x hz)), List.length_cons]

theorem filterMap_getElem?_of_all {α β : Type} (g : α → Option β) (l : List α)
    (h : ∀ x ∈ l, (g x).isSome) (k : ℕ) :
    (l.filterMap g)[k]? = l[k]?.bind g := by
  induction l generalizing k with
  | nil => simp
  | cons x xs ih =>
    rcases Option.isSome_iff_exists.mp (h x (List.mem_cons_self x xs)) with ⟨y, hy⟩
    rw [List.filterMap_cons, hy]
    cases k with
    | zero => simp [hy]
    | succ k =>
      rw [List.getElem?_cons_succ, List.getElem?_cons_succ,
        ih (fun z hz => h z (List.mem_cons_of_mem x hz)) k]

/-- C6: quantification is applied uniformly to every discovered sample,
the four standards included: when the run completes, the report has one
row per sample, and the k-th row pairs the k-th sample's name with the
row computed by the single per-sample procedure (window peak extraction,
calibration-curve prediction, flag check). -/
theorem C6_uniform_quantification (files : List RawFile)
    (fits : (ℚ × ℚ) × (ℚ × ℚ) × (ℚ × ℚ)) (k : ℕ)
    (h1 : calibFits files = some fits) (h2 : (pipelineRows files).isSome) :
    pipelineRows files = some (unsortedResults fits files) ∧
    (unsortedResults fits files).length = files.length ∧
    (unsortedResults fits files)[k]? = files[k]?.bind
      (fun f => (sampleRow fits (housekeep f.2)).map (fun r => (f.1, r))) := by
  cases hcond : files.all (fun f => (sampleRow fits (housekeep f.2)).isSome) with
  | false =>
    exfalso
    have hnone : pipelineRows files = none := by
      rw [pipelineRows, h1]
      simp [hcond]
    rw [hnone] at h2
    exact Bool.false_ne_true h2
  | true =>
    have hall : ∀ f ∈ files, (sampleRow fits (housekeep f.2)).isSome :=
      List.all_eq_true.mp hcond
    have hall2 : ∀ f ∈ files,
        ((sampleRow fits (housekeep f.2)).map (fun r => (f.1, r))).isSome := by
      intro f hf
      rcases Option.isSome_iff_exists.mp (hall f hf) with ⟨r, hr⟩
      rw [hr]
      rfl
    refine ⟨?_, filterMap_length_of_all _ files hall2,
      filterMap_getElem?_of_all _ files hall2 k⟩
    rw [pipelineRows, h1]
    simp [hcond]

theorem stdData_eq_lookup (files : List RawFile) (s : String) :
    stdData files s = (files.lookup s).map housekeep := by
  induction files with
  | nil => rfl
  | cons f fs ih =>
    obtain ⟨n, d⟩ := f
    simp only [stdData, sampleNames, sampleData, List.map_cons,
      List.indexOf?_cons, List.lookup_cons] at ih ⊢
    cases hbeq : (n == s) with
    | true =>
      have hn : n = s := beq_iff_eq.mp hbeq
      subst hn
      simp
    | false =>
      have hn : ¬ n = s := by
        intro h
        rw [h] at hbeq
        simp at hbeq
      have hsn : (s == n) = false := beq_eq_false_iff_ne.mpr (fun h => hn h.symm)
      rw [if_neg (by simp [hbeq]), hsn]
      cases ho : ((fs.map Prod.fst).indexOf? s) with
      | none =>
        rw [ho] at ih
        simp only [Option.map_none', Option.bind_eq_bind, Option.none_bind]
          at ih ⊢
        exact ih
      | some i =>
        rw [ho] at ih
        simp only [Option.map_some', Option.bind_eq_bind, Option.some_bind,
          Nat.succ_eq_add_one, List.getElem?_cons_succ] at ih ⊢
        exact ih

theorem lookup_eq_of_perm {l1 l2 : List RawFile} (hp : l1.Perm l2) :
    (l1.map Prod.fst).Nodup → ∀ s, l1.lookup s = l2.lookup s := by
  induction hp with
  | nil => exact fun _ _ => rfl
  | cons x p ih =>
    intro hnd s
    obtain ⟨n, d⟩ := x
    rw [List.lookup_cons, List.lookup_cons]
    cases s == n with
    | true => rfl
    | false => exact ih (List.Nodup.of_cons hnd) s
  | swap x y l =>
    intro hnd s
    obtain ⟨n1, d1⟩ := x
    obtain ⟨n2, d2⟩ := y
    have hne : n2 ≠ n1 := by
      rcases List.nodup_cons.mp hnd with ⟨hnm, _⟩
      intro h
      exact hnm (by rw [h]; exact List.mem_cons_self _ _)
    rw [List.lookup_cons, List.lookup_cons, List.lookup_cons, List.lookup_cons]
    cases h1 : s == n1 with
    | true =>
      cases h2 : s == n2 with
      | true =>
        exact absurd ((beq_iff_eq.mp h2).symm.trans (beq_iff_eq.mp h1)) hne
      | false => rfl
    | false =>
      cases h2 : s == n2 with
      | true => rfl
      | false => rfl
  | trans p1 p2 ih1 ih2 =>
    intro hnd s
    rw [ih1 hnd s, ih2 (((p1.map Prod.fst).nodup_iff).mp hnd) s]

theorem all_eq_of_perm {α : Type} (p : α → Bool) {l1 l2 : List α}
    (hp : l1.Perm l2) : l1.all p = l2.all p := by
  cases h : l2.all p with
  | false =>
    rcases List.all_eq_false.mp h with ⟨x, hx, hpx⟩
    exact List.all_eq_false.mpr ⟨x, hp.mem_iff.mpr hx, hpx⟩
  | true =>
    exact List.all_eq_true.mpr
      (fun x hx => List.all_eq_true.mp h x (hp.subset hx))

theorem calibFits_eq_of_perm {files1 files2 : List RawFile}
    (hp : files1.Perm files2) (hnd : (files1.map Prod.fst).Nodup) :
    calibFits files1 = calibFits files2 := by
  have hstd : ∀ s, stdData files1 s = stdData files2 s := by
    intro s
    rw [stdData_eq_lookup, stdData_eq_lookup, lookup_eq_of_perm hp hnd s]
  simp only [calibFits, hstd]

theorem unsorted_names_sublist (fits : (ℚ × ℚ) × (ℚ × ℚ) × (ℚ × ℚ))
    (files : List RawFile) :
    ((unsortedResults fits files).map Prod.fst).Sublist
      (files.map Prod.fst) := by
  induction files with
  | nil => exact List.Sublist.refl _
  | cons f fs ih =>
    rw [unsortedResults] at ih ⊢
    rw [List.filterMap_cons]
    cases hg : (sampleRow fits (housekeep f.2)).map (fun r => (f.1, r)) with
    | none =>
      rw [List.map_cons]
      exact List.Sublist.cons f.1 ih
    | some y =>
      rcases Option.map_eq_some'.mp hg with ⟨r, _, rfl⟩
      rw [List.map_cons, List.map_cons]
      exact List.Sublist.cons₂ f.1 ih

theorem nameLe_trans : ∀ p q r : String × Row,
    nameLe p q → nameLe q r → nameLe p r := by
  intro p q r hpq hqr
  simp only [nameLe, decide_eq_true_eq] at hpq hqr ⊢
  exact le_trans hpq hqr

theorem nameLe_total : ∀ p q : String × Row, nameLe p q || nameLe q p := by
  intro p q
  simp only [nameLe, Bool.or_eq_true, decide_eq_true_eq]
  exact le_total p.1 q.1

theorem sorted_report (l : List (String × Row)) :
    (l.mergeSort nameLe).Pairwise (fun p q => p.1 ≤ q.1) :=
  (List.sorted_mergeSort nameLe_trans nameLe_total l).imp
    (fun h => by simpa only [nameLe, decide_eq_true_eq] using h)

theorem strict_sorted_report {l m : List (String × Row)}
    (hperm : (l.mergeSort nameLe).Perm m) (hnd : (m.map Prod.fst).Nodup) :
    (l.mergeSort nameLe).Pairwise (fun p q => p.1 < q.1) := by
  have hle := sorted_report l
  have hnd1 : ((l.mergeSort nameLe).map Prod.fst).Nodup :=
    ((hperm.map Prod.fst).nodup_iff).mpr hnd
  have hne : (l.mergeSort nameLe).Pairwise
      (fun p q : String × Row => p.1 ≠ q.1) := List.pairwise_map.mp hnd1
  exact (hle.and hne).imp (fun h => lt_of_le_of_ne h.1 h.2)

theorem mergeSort_eq_of_perm {l1 l2 : List (String × Row)}
    (hp : l1.Perm l2) (hnd : (l1.map Prod.fst).Nodup) :
    l1.mergeSort nameLe = l2.mergeSort nameLe := by
  have p1 := List.mergeSort_perm l1 nameLe
  have p2 := List.mergeSort_perm l2 nameLe
  have p12 : (l1.mergeSort nameLe).Perm (l2.mergeSort nameLe) :=
    p1.trans (hp.trans p2.symm)
  have st1 : (l1.mergeSort nameLe).Pairwise (fun p q => p.1 < q.1) :=
    strict_sorted_report (p1.trans hp) ((hp.map Prod.fst).nodup_iff.mp hnd)
  have st2 : (l2.mergeSort nameLe).Pairwise (fun p q => p.1 < q.1) :=
    strict_sorted_report p2 ((hp.map Prod.fst).nodup_iff.mp hnd)
  exact List.eq_of_perm_of_sorted p12 st1 st2

theorem results_eq_of_perm {files1 files2 : List RawFile}
    (hp : files1.Perm files2) (hnd : (files1.map Prod.fst).Nodup) :
    results files1 = results files2 := by
  rw [results, results, pipelineRows, pipelineRows,
    calibFits_eq_of_perm hp hnd]
  cases hc : calibFits files2 with
  | none => rfl
  | some fits =>
    simp only [Option.bind_eq_bind, Option.some_bind,
      all_eq_of_perm (fun f => (sampleRow fits (housekeep f.2)).isSome) hp]
    cases hall : files2.all (fun f => (sampleRow fits (housekeep f.2)).isSome) with
    | false => rfl
    | true =>
      simp only [if_pos]
      have hpu : (unsortedResults fits files1).Perm (unsortedResults fits files2) :=
        hp.filterMap _
      have hndu : ((unsortedResults fits files1).map Prod.fst).Nodup :=
        List.Nodup.sublist (unsorted_names_sublist fits files1) hnd
      simp only [Option.pure_def, Option.map_some']
      rw [mergeSort_eq_of_perm hpu hndu]

/-- C8: in every report row the millimolar value is the ppm value
divided by the anion's fixed molar mass (35.453, 62.0049, 96.06), a pure
function of the ppm value. -/
theorem C8_mmol_conversion :
    molarMassCl = 35453 / 1000 ∧ molarMassNo3 = 620049 / 10000 ∧
    molarMassSo4 = 9606 / 100 ∧
    (∀ fits p, (mkRow fits p).clMmol = (mkRow fits p).clPpm / molarMassCl ∧
      (mkRow fits p).no3Mmol = (mkRow fits p).no3Ppm / molarMassNo3 ∧
      (mkRow fits p).so4Mmol = (mkRow fits p).so4Ppm / molarMassSo4) ∧
    (∀ files rs, results files = some rs → ∀ e ∈ rs,
      e.2.clMmol = e.2.clPpm / molarMassCl ∧
      e.2.no3Mmol = e.2.no3Ppm / molarMassNo3 ∧
      e.2.so4Mmol = e.2.so4Ppm / molarMassSo4) := by
  refine ⟨by decide, by decide, by decide, fun fits p => ⟨rfl, rfl, rfl⟩, ?_⟩
  intro files rs hrs e he
  rw [results] at hrs
  rcases Option.map_eq_some'.mp hrs with ⟨rs0, hrs0, rfl⟩
  have he0 : e ∈ rs0 := ((List.mergeSort_perm rs0 nameLe).mem_iff).mp he
  rw [pipelineRows] at hrs0
  cases hc : calibFits files with
  | none =>
    rw [hc] at hrs0
    simp at hrs0
  | some fits =>
    rw [hc] at hrs0
    simp only [Option.bind_eq_bind, Option.some_bind] at hrs0
    cases hall : files.all (fun f => (sampleRow fits (housekeep f.2)).isSome) with
    | false =>
      rw [hall] at hrs0
      simp at hrs0
    | true =>
      rw [hall] at hrs0
      simp only [if_pos, Option.pure_def, Option.some_inj] at hrs0
      subst hrs0
      rcases List.mem_filterMap.mp he0 with ⟨f, _, hf⟩
      rcases Option.map_eq_some'.mp hf with ⟨r, hr, rfl⟩
      rw [sampleRow] at hr
      rcases Option.map_eq_some'.mp hr with ⟨pk, _, rfl⟩
      exact ⟨rfl, rfl, rfl⟩

/-- C9: the report rows are sorted lexicographically by sample name, and
permuting the discovery order of the input files (with their distinct
names) leaves the report unchanged. -/
theorem C9_sorted_report (files1 files2 : List RawFile)
    (hnd : (files1.map Prod.fst).Nodup) (hp : files1.Perm files2) :
    results files1 = results files2 ∧
    (∀ rs, results files1 = some rs →
      rs.Pairwise (fun p q : String × Row => p.1 ≤ q.1)) := by
  refine ⟨results_eq_of_perm hp hnd, ?_⟩
  intro rs hrs
  rw [results] at hrs
  rcases Option.map_eq_some'.mp hrs with ⟨rs0, _, rfl⟩
  exact sorted_report rs0

/-- C9 witness: the concrete batch `W` and its transposition `Wswapped`
give the same report, and the report of `W` is sorted by name. -/
theorem C9_witness :
    results W = results Wswapped ∧
    (∀ rs, results W = some rs →
      rs.Pairwise (fun p q : String × Row => p.1 ≤ q.1)) :=
  C9_sorted_report W Wswapped (by decide) (List.Perm.swap _ _ _)

/-- C10: the report is a function of the set of (name, contents) pairs
alone: runs over any two discovery orders of the same files produce
identical results tables. -/
theorem C10_order_independent (files1 files2 : List RawFile)
    (hnd : (files1.map Prod.fst).Nodup) (hp : files1.Perm files2) :
    results files1 = results files2 :=
  results_eq_of_perm hp hnd

/-- C10 witness: the transposed batch `Wswapped` yields the same report
as `W`. -/
theorem C10_witness : results Wswapped = results W :=
  C10_order_independent Wswapped W (by decide) (List.Perm.swap _ _ _)

theorem npMax_wFrame_eq (v a b : ℚ) (i : ℕ) (hi : i < 751)
    (ha : a ≤ minutes i) (hb : minutes i ≤ b) :
    npMax (housekeep (wFrame v)) a b = some v := by
  refine (npMax_eq_some_iff _ a b v).mpr ⟨?_, ?_⟩
  · refine ⟨(minutes i, [v]), ?_, ha, hb, List.mem_singleton.mpr rfl⟩
    have hrep : (housekeep (wFrame v)).rows
        = (List.range 751).map (fun _ => [v]) := by
      rw [housekeep, wFrame]
      show List.replicate 751 [v] = _
      rw [List.map_const', List.length_range]
    have hidx : (housekeep (wFrame v)).index
        = (List.range 751).map minutes := by
      rw [housekeep, wFrame]
      show (List.range (List.replicate 751 ([v] : List ℚ)).length).map minutes = _
      rw [List.length_replicate]
    rw [hrep, hidx, List.zip_map']
    exact List.mem_map.mpr ⟨i, List.mem_range.mpr hi, rfl⟩
  · rintro x ⟨p, hp, _, _, hx⟩
    have hrow : p.2 ∈ (housekeep (wFrame v)).rows := (List.of_mem_zip hp).2
    rw [housekeep, wFrame] at hrow
    have : p.2 = [v] := List.eq_of_mem_replicate hrow
    rw [this] at hx
    rw [List.mem_singleton.mp hx]

theorem anionPeaks_wFrame (v : ℚ) :
    anionPeaks (housekeep (wFrame v)) = some (v, v, v) := by
  have h1 := npMax_wFrame_eq v 5 7 300 (by decide) (by decide) (by decide)
  have h2 := npMax_wFrame_eq v 9 11 540 (by decide) (by decide) (by decide)
  have h3 := npMax_wFrame_eq v (25 / 2) 15 750 (by decide) (by decide) (by decide)
  simp only [anionPeaks, h1, h2, h3, Option.bind_eq_bind, Option.some_bind,
    Option.pure_def]

theorem sampleRow_wFrame (fits : (ℚ × ℚ) × (ℚ × ℚ) × (ℚ × ℚ)) (v : ℚ) :
    sampleRow fits (housekeep (wFrame v)) = some (mkRow fits (v, v, v)) := by
  rw [sampleRow, anionPeaks_wFrame]
  rfl

theorem calibFits_W : calibFits W = some wFits := by
  have s1 : stdData W ("std1") = some (housekeep (wFrame 1)) := rfl
  have s2 : stdData W ("std2") = some (housekeep (wFrame 2)) := rfl
  have s3 : stdData W ("std3") = some (housekeep (wFrame 3)) := rfl
  have s4 : stdData W ("std4") = some (housekeep (wFrame 4)) := rfl
  simp only [calibFits, s1, s2, s3, s4, anionPeaks_wFrame,
    Option.bind_eq_bind, Option.some_bind, Option.pure_def, Option.some_inj]
  decide

theorem all_W :
    W.all (fun f => (sampleRow wFits (housekeep f.2)).isSome) = true := by
  simp [W, sampleRow_wFrame]

theorem pipelineRows_W : pipelineRows W = some (unsortedResults wFits W) := by
  rw [pipelineRows, calibFits_W]
  simp [all_W]

/-- C6 witness: on the concrete batch `W` (four standards and one
unknown) the completed run has one row per sample and row 0 — the
standard std1 — is produced by the same per-sample quantification. -/
theorem C6_witness :
    pipelineRows W = some (unsortedResults wFits W) ∧
    (unsortedResults wFits W).length = W.length ∧
    (unsortedResults wFits W)[0]? = W[0]?.bind
      (fun f => (sampleRow wFits (housekeep f.2)).map (fun r => (f.1, r))) :=
  C6_uniform_quantification W wFits 0 calibFits_W
    (by rw [pipelineRows_W]; rfl)


end DataProc
